import Mathlib

/-!
Shallow embedding of the koishi database layer:
the mysql filter compiler and query facade (src/unnamed/part_000)
and the sqlite schema synchronizer (src/plugins/sqlite/src/database.ts).
-/

/-- JavaScript values as they occur in filter expressions and rows. -/
inductive JSVal where
  | null
  | undef
  | bool (b : Bool)
  | num (n : Int)
  | str (s : String)
  | date (t : Int)
  | regexp (source : String)
  | arr (elems : List JSVal)
  | obj (entries : List (String × JSVal))
deriving Repr

/-- Modelled from the spec: literal-value quoting of the Dialect Capability
Provider (the mysql driver escape function, whose source is not under src/). -/
def mysqlEscape : JSVal → String
  | .null => "NULL"
  | .undef => "NULL"
  | .bool b => if b then "true" else "false"
  | .num n => toString n
  | .str s => "'" ++ s ++ "'"
  | .date t => "'" ++ toString t ++ "'"
  | .regexp src => "'" ++ src ++ "'"
  | .arr _ => "'[array]'"
  | .obj _ => "'[object]'"

/-- Modelled from the spec: identifier quoting of the Dialect Capability
Provider (the mysql driver escapeId function, whose source is not under src/). -/
def mysqlEscapeId (s : String) : String := "`" ++ s ++ "`"

/-- JavaScript truthiness for the values of JSVal. -/
def jsFalsy : JSVal → Bool
  | .null => true
  | .undef => true
  | .bool b => !b
  | .num n => n == 0
  | .str s => s == ""
  | _ => false

/-- Source createMemberQuery: empty list yields the constant 0 (or 1 when
negated); otherwise an IN list of escaped values. -/
def createMemberQuery (key : String) (value : List JSVal) (notStr : String) : String :=
  if value.isEmpty then (if notStr == "" then "0" else "1")
  else key ++ notStr ++ " IN (" ++ String.intercalate ", " (value.map mysqlEscape) ++ ")"

/-- Source createRegExpQuery. -/
def createRegExpQuery (key : String) (source : String) : String :=
  key ++ " REGEXP " ++ mysqlEscape (.str source)

/-- Source createElementQuery. -/
def createElementQuery (key : String) (value : JSVal) : String :=
  "FIND_IN_SET(" ++ mysqlEscape value ++ ", " ++ key ++ ")"

/-- Source comparator: renders an infix relational test. -/
def mysqlComparator (operator : String) (key : String) (value : JSVal) : String :=
  key ++ " " ++ operator ++ " " ++ mysqlEscape value

/-- Source createEqualQuery. -/
def createEqualQuery (key : String) (value : JSVal) : String :=
  mysqlComparator "=" key value

/-- The $in and $nin operators call createMemberQuery on an arbitrary value;
for a non-array the JavaScript body reads value.length (undefined, hence the
empty-list constant, except strings which then fail at value.map, and
null-ish values which fail already at the length read). -/
def memberQueryJS (key : String) (value : JSVal) (notStr : String) : Except String String :=
  match value with
  | .arr xs => .ok (createMemberQuery key xs notStr)
  | .str s =>
      if s == "" then .ok (if notStr == "" then "0" else "1")
      else .error "TypeError: value.map is not a function"
  | .null => .error "TypeError: cannot read length of null"
  | .undef => .error "TypeError: cannot read length of undefined"
  | _ => .ok (if notStr == "" then "0" else "1")

/-- Source queryOperators.$el: array maps to a disjunction of element tests,
numbers and strings to a single element test, anything else throws. -/
def queryOpEl (key : String) (value : JSVal) : Except String String :=
  match value with
  | .arr xs =>
      .ok ("(" ++ String.intercalate " || " (xs.map (createElementQuery key)) ++ ")")
  | .num n => .ok (createElementQuery key (.num n))
  | .str s => .ok (createElementQuery key (.str s))
  | _ => .error "query expr under $el is not supported"

/-- Source queryOperators.$size: a falsy operand compiles to a direct
falsiness test on the column, otherwise a comma-count cardinality test. -/
def queryOpSize (key : String) (value : JSVal) : String :=
  if jsFalsy value then "!" ++ key
  else key ++ " && LENGTH(" ++ key ++ ") - LENGTH(REPLACE(" ++ key
    ++ ", \",\", \"\")) = " ++ mysqlEscape value ++ " - 1"

/-- The recognized operator keys of the source queryOperators table. -/
def recognizedOp (prop : String) : Bool :=
  prop ∈ ["$in", "$nin", "$eq", "$ne", "$gt", "$gte", "$lt", "$lte",
          "$regex", "$regexFor", "$el", "$size",
          "$bitsAllSet", "$bitsAllClear", "$bitsAnySet", "$bitsAnyClear"]

/-- Dispatch over the source queryOperators table: none for a key not in the
table (the source tests membership with the in operator), otherwise the
rendered condition or the thrown error. -/
def applyQueryOperator (prop : String) (key : String) (value : JSVal) :
    Option (Except String String) :=
  if prop = "$in" then some (memberQueryJS key value "")
  else if prop = "$nin" then some (memberQueryJS key value " NOT")
  else if prop = "$eq" then some (.ok (createEqualQuery key value))
  else if prop = "$ne" then some (.ok (mysqlComparator "!=" key value))
  else if prop = "$gt" then some (.ok (mysqlComparator ">" key value))
  else if prop = "$gte" then some (.ok (mysqlComparator ">=" key value))
  else if prop = "$lt" then some (.ok (mysqlComparator "<" key value))
  else if prop = "$lte" then some (.ok (mysqlComparator "<=" key value))
  else if prop = "$regex" then
    some (.ok (match value with
      | .regexp src => createRegExpQuery key src
      | _ => key ++ " REGEXP " ++ mysqlEscape .undef))
  else if prop = "$regexFor" then some (.ok (mysqlEscape value ++ " REGEXP " ++ key))
  else if prop = "$el" then some (queryOpEl key value)
  else if prop = "$size" then some (.ok (queryOpSize key value))
  else if prop = "$bitsAllSet" then
    some (.ok (key ++ " & " ++ mysqlEscape value ++ " = " ++ mysqlEscape value))
  else if prop = "$bitsAllClear" then
    some (.ok (key ++ " & " ++ mysqlEscape value ++ " = 0"))
  else if prop = "$bitsAnySet" then
    some (.ok (key ++ " & " ++ mysqlEscape value ++ " != 0"))
  else if prop = "$bitsAnyClear" then
    some (.ok (key ++ " & " ++ mysqlEscape value ++ " != " ++ mysqlEscape value))
  else none

/-- The for-in loop over a field-level operator map: keys present in the
queryOperators table contribute a condition in order, other keys are skipped. -/
def opConds (key : String) : List (String × JSVal) → Except String (List String)
  | [] => .ok []
  | (prop, v) :: rest =>
      match applyQueryOperator prop key v with
      | none => opConds key rest
      | some (.error e) => .error e
      | some (.ok c) => do
          let cs ← opConds key rest
          .ok (c :: cs)

/-- The field-shorthand dispatch of the source parseQuery: array, RegExp,
string or number or Date, and finally the operator-map for-in loop (a
primitive or null-ish value enumerates no properties). -/
def fieldConds (escKey : String) (value : JSVal) : Except String (List String) :=
  match value with
  | .arr xs => .ok [createMemberQuery escKey xs ""]
  | .regexp src => .ok [createRegExpQuery escKey src]
  | .str s => .ok [createEqualQuery escKey (.str s)]
  | .num n => .ok [createEqualQuery escKey (.num n)]
  | .date t => .ok [createEqualQuery escKey (.date t)]
  | .obj entries => opConds escKey entries
  | .null => .ok []
  | .undef => .ok []
  | .bool _ => .ok []

/-- One key-value entry of a query-expression object, keyed as the source
dispatches: the logical keys by name, all other keys as field nodes. The
entry list keeps JavaScript object insertion order. -/
inductive QEntry where
  | qnot (e : List QEntry)
  | qand (es : List (List QEntry))
  | qor (es : List (List QEntry))
  | field (name : String) (v : JSVal)
deriving Repr

/-- A query expression is its ordered list of entries. -/
abbrev QueryExpr := List QEntry

mutual

/-- Source parseQuery: iterate the entries, then the final constant folding
(no condition yields 1, any condition equal to the literal 0 collapses the
conjunction to 0, otherwise join). An early return inside the loop
(empty $and) skips the folding. -/
def parseQuery : QueryExpr → Except String String
  | q =>
    match parseEntries q with
    | .error e => .error e
    | .ok (.inl s) => .ok s
    | .ok (.inr conds) =>
        .ok (if conds.isEmpty then "1"
             else if conds.contains "0" then "0"
             else String.intercalate " && " conds)

/-- The for-in loop of parseQuery: Sum.inl is the early return of the empty
$and branch, Sum.inr the accumulated conditions. An empty $or falls through
to the array shorthand under the key name, exactly as in the source. -/
def parseEntries : List QEntry → Except String (Sum String (List String))
  | [] => .ok (.inr [])
  | .qnot e :: rest =>
      match parseQuery e with
      | .error err => .error err
      | .ok sub =>
          match parseEntries rest with
          | .error err => .error err
          | .ok (.inl s) => .ok (.inl s)
          | .ok (.inr conds) => .ok (.inr (("!(" ++ sub ++ ")") :: conds))
  | .qand [] :: _ => .ok (.inl "0")
  | .qand (e :: es) :: rest =>
      match parseList (e :: es) with
      | .error err => .error err
      | .ok subs =>
          match parseEntries rest with
          | .error err => .error err
          | .ok (.inl s) => .ok (.inl s)
          | .ok (.inr conds) => .ok (.inr (subs ++ conds))
  | .qor [] :: rest =>
      match parseEntries rest with
      | .error err => .error err
      | .ok (.inl s) => .ok (.inl s)
      | .ok (.inr conds) =>
          .ok (.inr (createMemberQuery (mysqlEscapeId "$or") [] "" :: conds))
  | .qor (e :: es) :: rest =>
      match parseList (e :: es) with
      | .error err => .error err
      | .ok subs =>
          match parseEntries rest with
          | .error err => .error err
          | .ok (.inl s) => .ok (.inl s)
          | .ok (.inr conds) =>
              .ok (.inr (("(" ++ String.intercalate " || " subs ++ ")") :: conds))
  | .field name v :: rest =>
      match fieldConds (mysqlEscapeId name) v with
      | .error err => .error err
      | .ok cs =>
          match parseEntries rest with
          | .error err => .error err
          | .ok (.inl s) => .ok (.inl s)
          | .ok (.inr conds) => .ok (.inr (cs ++ conds))

/-- The map of parseQuery over the sub-expressions of $and and $or. -/
def parseList : List QueryExpr → Except String (List String)
  | [] => .ok []
  | e :: es =>
      match parseQuery e with
      | .error err => .error err
      | .ok s =>
          match parseList es with
          | .error err => .error err
          | .ok ss => .ok (s :: ss)

end

/-- Source createFilter. Query.resolve is not under src/; on a query already
in expression shape it is the identity, so the compiler takes the expression
directly. -/
def createFilter (query : QueryExpr) : Except String String :=
  parseQuery query

/-- One issued SQL statement together with its bound parameter list. -/
abbrev Stmt := String × List JSVal

/-- The value a facade operation hands back to its caller, as the JavaScript
function returns it: a bare return gives undefined, the vacuous get returns
the empty array, a executed select returns the rows of its statement. -/
inductive RetVal where
  | undefined
  | emptyList
  | rows (sql : String)
  | count (n : Nat)
deriving Repr, DecidableEq

/-- Association-list lookup, the JavaScript property read on a row object. -/
def lookupEntry (l : List (String × JSVal)) (k : String) : Option JSVal :=
  (l.find? (fun p => p.1 == k)).map (fun p => p.2)

/-- JavaScript object spread of two objects in order: keys of the first in
place with values overridden by the second where shared, then the remaining
keys of the second. -/
def objectSpread (a b : List (String × JSVal)) : List (String × JSVal) :=
  a.map (fun p => (p.1, (lookupEntry b p.1).getD p.2))
    ++ b.filter (fun p => (lookupEntry a p.1).isNone)

/-- Modelled from the spec: MysqlDatabase.joinKeys of the absent ./database
module, rendering the requested field list (or a star) for selection. -/
def joinKeys : Option (List String) → String
  | none => "*"
  | some ks => String.intercalate ", " (ks.map mysqlEscapeId)

/-- Modelled from the spec: the host utility makeArray, wrapping a single
key as a one-element list and passing a list through. -/
def makeArray : Option (Sum String (List String)) → List String
  | none => []
  | some (.inl s) => [s]
  | some (.inr l) => l

/-- Modelled from the spec: the host utility difference, keeping the fields
that are not among the conflict keys. -/
def difference (xs ys : List String) : List String :=
  xs.filter (fun x => !ys.contains x)

/-- Modelled from the spec: MysqlDatabase.formatValues of the absent
./database module, the Value Caster dump of each listed field of a row. -/
def formatValues (row : List (String × JSVal)) (fields : List String) : List JSVal :=
  fields.map (fun f => (lookupEntry row f).getD .undef)

/-- Source get: compile the filter, return the empty array on the constant 0
without touching the store, otherwise select with optional limit and offset
(a zero limit or offset is falsy and omitted, as in the source truthiness
test). -/
def mysqlGet (name : String) (query : QueryExpr) (fields : Option (List String))
    (limit offset : Nat) : Except String (List Stmt × RetVal) :=
  match createFilter query with
  | .error e => .error e
  | .ok filter =>
      if filter == "0" then .ok ([], .emptyList)
      else
        let keys := joinKeys fields
        let sql0 := "SELECT " ++ keys ++ " FROM " ++ name ++ " _" ++ name ++ " WHERE " ++ filter
        let sql1 := if limit != 0 then sql0 ++ " LIMIT " ++ toString limit else sql0
        let sql2 := if offset != 0 then sql1 ++ " OFFSET " ++ toString offset else sql1
        .ok ([(sql2, [])], .rows sql2)

/-- Source set: compile the filter, bare return on the constant 0, otherwise
issue the UPDATE statement exactly as the source template builds it (the
computed filter is not interpolated and the function returns undefined). -/
def mysqlSet (name : String) (query : QueryExpr) (data : List (String × JSVal)) :
    Except String (List Stmt × RetVal) :=
  match createFilter query with
  | .error e => .error e
  | .ok filter =>
      if filter == "0" then .ok ([], .undefined)
      else
        let keys := data.map (fun p => p.1)
        let update := String.intercalate ", "
          (keys.map (fun k => mysqlEscapeId k ++ " = VALUES(" ++ mysqlEscapeId k ++ ")"))
        .ok ([("UPDATE " ++ name ++ " SET " ++ update, [])], .undefined)

/-- Source remove: compile the filter, bare return on the constant 0,
otherwise delete the matching rows with the table name as a parameter. -/
def mysqlRemove (name : String) (query : QueryExpr) :
    Except String (List Stmt × RetVal) :=
  match createFilter query with
  | .error e => .error e
  | .ok filter =>
      if filter == "0" then .ok ([], .undefined)
      else .ok ([("DELETE FROM ?? WHERE " ++ filter, [.str name])], .undefined)

/-- Source upsert. The registry entry for the table (its primary key) and
the default row built by Tables.create are not under src/ and are passed in,
modelled from the spec. The source spreads the created defaults after each
input row, so the merge is objectSpread item createRow in that order. -/
def mysqlUpsert (primary : Option (Sum String (List String)))
    (createRow : List (String × JSVal)) (name : String)
    (data : List (List (String × JSVal)))
    (keysArg : Option (Sum String (List String))) : List Stmt × RetVal :=
  match data with
  | [] => ([], .undefined)
  | first :: _ =>
      let data2 := data.map (fun item => objectSpread item createRow)
      let keys := makeArray (match keysArg with | some k => some k | none => primary)
      let fields := (objectSpread first createRow).map (fun p => p.1)
      let placeholder := "(" ++ String.intercalate ", " (fields.map (fun _ => "?")) ++ ")"
      let update := String.intercalate ", "
        ((difference fields keys).map
          (fun k => mysqlEscapeId k ++ " = VALUES(" ++ mysqlEscapeId k ++ ")"))
      let sql := "INSERT INTO " ++ mysqlEscapeId name ++ " (" ++ joinKeys (some fields)
        ++ ") VALUES " ++ String.intercalate ", " (data2.map (fun _ => placeholder))
        ++ "\n      ON DUPLICATE KEY UPDATE " ++ update
      ([(sql, (data2.map (fun row => formatValues row fields)).flatten)], .undefined)

/-! The sqlite schema synchronizer (src/plugins/sqlite/src/database.ts). -/

/-- The declared field types of Tables Field type. -/
inductive FieldType where
  | integer | unsigned | float | double | decimal
  | char | string | text | list | json
  | date | time | timestamp
deriving Repr, DecidableEq

/-- Source getTypeDefinition: the sqlite storage class per declared type. -/
def getTypeDefinition : FieldType → String
  | .integer | .unsigned | .date | .time | .timestamp => "INTEGER"
  | .float | .double | .decimal => "REAL"
  | .char | .string | .text | .list | .json => "TEXT"

/-- One declared Field Spec: type, optional initial value (none models the
JavaScript undefined), optional explicit nullability, advisory length. -/
structure FieldSpec where
  type : FieldType
  initial : Option JSVal
  nullable : Option Bool
  length : Option Nat
deriving Repr

/-- One declared Table Config as the synchronizer reads it. -/
structure TableConfig where
  primary : Option (Sum String (List String))
  autoInc : Bool
  unique : List (Sum String (List String))
  foreign : List (String × String × String)
  fields : List (String × FieldSpec)
deriving Repr

/-- Modelled from the spec: identifier quoting of the sqlite Dialect
Capability Provider (queryHelper.escapeId of the absent ./utils module). -/
def sqliteEscapeId (s : String) : String := "\"" ++ s ++ "\""

/-- Rendering of scalar values as text, used by the modelled caster. -/
def jsScalarText : JSVal → String
  | .num n => toString n
  | .str s => s
  | .bool b => if b then "true" else "false"
  | .null => "null"
  | .undef => ""
  | .date t => toString t
  | .regexp s => s
  | .arr _ => ""
  | .obj _ => ""

/-- Modelled from the spec: literal quoting of the sqlite Dialect Capability
Provider (queryHelper.escape of the absent ./utils module). -/
def sqliteEscape (v : JSVal) : String :=
  match v with
  | .num n => toString n
  | .null => "NULL"
  | .undef => "NULL"
  | .bool b => if b then "1" else "0"
  | w => "'" ++ jsScalarText w ++ "'"

/-- Modelled from the spec: the Value Caster dump of one field value (list
to delimited string, structured value to encoded text, date and time kinds
to an integer), used to render literal default values. -/
def casterDump : FieldType → JSVal → JSVal
  | .list, .arr xs => .str (String.intercalate "," (xs.map jsScalarText))
  | .json, w => .str (jsScalarText w)
  | .date, .date n => .num n
  | .time, .date n => .num n
  | .timestamp, .date n => .num n
  | _, w => w

/-- The field spec looked up in the config (the source indexes
config.fields with a key that is always a declared field name). -/
def lookupField (cfg : TableConfig) (key : String) : FieldSpec :=
  ((cfg.fields.find? (fun p => p.1 == key)).map (fun p => p.2)).getD
    (FieldSpec.mk .integer none none none)

/-- The source test key === config.primary, true only for a single
(non-composite) primary key equal to the key. -/
def primaryIsKey (cfg : TableConfig) (key : String) : Bool :=
  match cfg.primary with
  | some (.inl p) => key == p
  | _ => false

/-- Source getColumnDefinitionSQL: the auto-increment single primary key
takes the fixed inline definition, every other column gets its mapped type,
nullability (defaulted from the initial value), and optional default. -/
def getColumnDefinitionSQL (cfg : TableConfig) (key : String) : String :=
  let fs := lookupField cfg key
  let nullable :=
    match fs.nullable with
    | some b => b
    | none => (match fs.initial with | none => true | some .null => true | some _ => false)
  let def0 := sqliteEscapeId key
  if primaryIsKey cfg key && cfg.autoInc then
    def0 ++ " INTEGER NOT NULL PRIMARY KEY AUTOINCREMENT"
  else
    let d := def0 ++ " " ++ getTypeDefinition fs.type ++ (if nullable then " " else " NOT ") ++ "NULL"
    match fs.initial with
    | none => d
    | some .null => d
    | some v => d ++ " DEFAULT " ++ sqliteEscape (casterDump fs.type v)

/-- Source _joinKeys: escaped identifiers joined by a comma, a star when no
list is given. -/
def sqliteJoinKeys : Option (List String) → String
  | none => "*"
  | some ks => String.intercalate "," (ks.map sqliteEscapeId)

/-- The UNIQUE clause generated per unique entry of the config. -/
def uniqueConstraintSQL (ks : Sum String (List String)) : String :=
  "UNIQUE (" ++ sqliteJoinKeys (some (makeArray (some ks))) ++ ")"

/-- The FOREIGN KEY clause generated per foreign entry of the config,
keeping the line break of the source template literal. -/
def foreignConstraintSQL (f : String × String × String) : String :=
  "FOREIGN KEY (" ++ sqliteEscapeId f.1 ++ ")\n              REFERENCES "
    ++ sqliteEscapeId f.2.1 ++ " (" ++ sqliteEscapeId f.2.2 ++ ")"

/-- The constraint list of the CREATE statement: the primary-key constraint
only for a truthy primary without autoInc, then one UNIQUE per unique entry
and one FOREIGN KEY per foreign entry. -/
def createConstraints (cfg : TableConfig) : List String :=
  (if cfg.primary.isSome && !cfg.autoInc then
    ["PRIMARY KEY (" ++ sqliteJoinKeys (some (makeArray cfg.primary)) ++ ")"]
  else [])
  ++ cfg.unique.map uniqueConstraintSQL
  ++ cfg.foreign.map foreignConstraintSQL

/-- The CREATE TABLE statement of the absent-table branch of syncTable. -/
def createTableSQL (table : String) (cfg : TableConfig) : String :=
  let defs := (cfg.fields.map (fun p => p.1)).map (getColumnDefinitionSQL cfg)
  "CREATE TABLE " ++ sqliteEscapeId table ++ " ("
    ++ String.intercalate "," (defs ++ createConstraints cfg) ++ ")"

/-- The ADD COLUMN statement of the diff branch. -/
def addColumnSQL (table : String) (cfg : TableConfig) (key : String) : String :=
  "ALTER TABLE " ++ sqliteEscapeId table ++ " ADD COLUMN " ++ getColumnDefinitionSQL cfg key

/-- The DROP COLUMN statement of the diff branch. -/
def dropColumnSQL (table : String) (key : String) : String :=
  "ALTER TABLE " ++ sqliteEscapeId table ++ " DROP COLUMN " ++ sqliteEscapeId key

/-- The diff loop of syncTable over an existing table: iterate the declared
keys followed by the physical column names, skip names present on both
sides, add a column for a declared-only name, drop a physical-only one. -/
def syncExistingStmts (table : String) (cfg : TableConfig) (phys : List String) : List String :=
  let keys := cfg.fields.map (fun p => p.1)
  (keys ++ phys).filterMap (fun key =>
    if keys.contains key && phys.contains key then none
    else if keys.contains key then some (addColumnSQL table cfg key)
    else some (dropColumnSQL table key))

/-- JavaScript assignment into config.fields: an existing key keeps its
position and takes the new spec, a new key is appended. -/
def setField (fields : List (String × FieldSpec)) (k : String) (v : FieldSpec) :
    List (String × FieldSpec) :=
  if fields.any (fun p => p.1 == k) then
    fields.map (fun p => if p.1 == k then (k, v) else p)
  else fields ++ [(k, v)]

/-- The field spec synthesized per configured platform in the identity-table
special case. -/
def platformField : FieldSpec := FieldSpec.mk .string none none (some 63)

/-- The JavaScript Set over the configured platforms: first occurrences in
order. -/
def setDedupAux : List String → List String → List String
  | [], _ => []
  | x :: xs, seen =>
      if seen.contains x then setDedupAux xs seen
      else x :: setDedupAux xs (x :: seen)

/-- Insertion-ordered deduplication, the iteration order of new Set. -/
def setDedup (l : List String) : List String := setDedupAux l []

/-- The per-platform mutation of the shared config: a string-typed field
assigned under the platform name, and the platform pushed onto unique. -/
def registerPlatform (c : TableConfig) (p : String) : TableConfig :=
  TableConfig.mk c.primary c.autoInc (c.unique ++ [Sum.inl p]) c.foreign
    (setField c.fields p platformField)

/-- The forEach over the platform set of the user special case. -/
def registerPlatforms (c : TableConfig) (ps : List String) : TableConfig :=
  ps.foldl registerPlatform c

/-- The write-back into the shared Table Config registry performed by
syncTable: only the designated identity table user is mutated, one
synthesized field and unique entry per distinct configured bot platform. -/
def updateConfig (table : String) (platforms : List String) (cfg : TableConfig) : TableConfig :=
  if table == "user" then registerPlatforms cfg (setDedup platforms) else cfg

/-- The state syncTable reads and writes: the shared registry entry of the
table and the introspected physical column names (the PRAGMA table_info
rows of the Execution Gateway, modelled from the spec as the column list
the emitted DDL converges). -/
structure SyncState where
  config : TableConfig
  columns : List String
deriving Repr

/-- Source syncTable: mutate the registry for the identity table, then
either create the table (one column definition per declared field plus the
constraints) or diff and alter. The resulting physical columns follow the
DDL: a created table has exactly the declared columns, an altered one keeps
the shared columns and gains the added ones. -/
def syncTable (table : String) (platforms : List String) (st : SyncState) :
    List String × SyncState :=
  let cfg := updateConfig table platforms st.config
  let keys := cfg.fields.map (fun p => p.1)
  if st.columns.isEmpty then
    ([createTableSQL table cfg], SyncState.mk cfg keys)
  else
    (syncExistingStmts table cfg st.columns,
      SyncState.mk cfg
        (st.columns.filter (fun c => keys.contains c)
          ++ keys.filter (fun k => !st.columns.contains k)))

/-- Optional lookup into config.fields, the read later query compilation
performs on the shared registry. -/
def lookupFieldOpt (fields : List (String × FieldSpec)) (k : String) : Option FieldSpec :=
  (fields.find? (fun p => p.1 == k)).map (fun p => p.2)

/-- A plain integer field spec, used by concrete instances. -/
def fieldInt : FieldSpec := FieldSpec.mk .integer none none none

/-- A concrete two-field table config. -/
def cfgAB : TableConfig :=
  TableConfig.mk (some (Sum.inl "a")) false [] [] [("a", fieldInt), ("b", fieldInt)]

/-- A concrete auto-increment table config whose primary field declares a
text type, an initial value and explicit non-nullability. -/
def cfgAuto : TableConfig :=
  TableConfig.mk (some (Sum.inl "id")) true [Sum.inr ["x", "y"]] [("f", "other", "fid")]
    [("id", FieldSpec.mk .text (some (JSVal.str "abc")) (some false) none)]

/-! Shared lemmas. -/

/-- A key outside the queryOperators table dispatches to nothing. -/
theorem applyQueryOperator_eq_none (prop key : String) (v : JSVal)
    (h : recognizedOp prop = false) : applyQueryOperator prop key v = none := by
  simp only [recognizedOp, List.mem_cons, List.not_mem_nil, or_false,
    decide_eq_false_iff_not, not_or] at h
  obtain ⟨h1, h2, h3, h4, h5, h6, h7, h8, h9, h10, h11, h12, h13, h14, h15, h16⟩ := h
  simp only [applyQueryOperator, h1, h2, h3, h4, h5, h6, h7, h8, h9, h10, h11,
    h12, h13, h14, h15, h16, if_false]

/-- Unrecognized keys of an operator map do not change its compilation. -/
theorem opConds_filter_recognized (key : String) (entries : List (String × JSVal)) :
    opConds key entries = opConds key (entries.filter (fun p => recognizedOp p.1)) := by
  induction entries with
  | nil => rfl
  | cons hd tl ih =>
      obtain ⟨prop, v⟩ := hd
      cases hrec : recognizedOp prop with
      | false =>
          have hnone := applyQueryOperator_eq_none prop key v hrec
          simp [List.filter_cons, hrec, opConds, hnone, ih]
      | true =>
          cases hap : applyQueryOperator prop key v with
          | none => simp [List.filter_cons, hrec, opConds, hap, ih]
          | some r =>
              cases r with
              | error e => simp [List.filter_cons, hrec, opConds, hap, ih]
              | ok c => simp [List.filter_cons, hrec, opConds, hap, ih]

/-- An operator map without a single recognized key compiles to no condition. -/
theorem opConds_of_unrecognized (key : String) (entries : List (String × JSVal))
    (h : ∀ p ∈ entries, recognizedOp p.1 = false) : opConds key entries = .ok [] := by
  induction entries with
  | nil => rfl
  | cons hd tl ih =>
      have hnone := applyQueryOperator_eq_none hd.1 key hd.2 (h hd (by simp))
      have := ih (fun p hp => h p (by simp [hp]))
      simp [opConds, hnone, this]

/-! C1. -/

/-- C1 counterexample: compiling the empty conjunction yields the constant
0, not the constant 1 the claim states for it. -/
theorem c1_counterexample :
    createFilter [QEntry.qand []] = .ok "0" ∧ createFilter [QEntry.qand []] ≠ .ok "1" := by
  constructor <;> simp [createFilter, parseQuery, parseEntries]

/-- C1 amended: compiling the empty disjunction yields the constant false,
and compiling the empty conjunction also yields the constant false (the
source returns the 0 literal for an empty and-list). -/
theorem c1_empty_and_empty_or_compile_false :
    createFilter [QEntry.qor []] = .ok "0" ∧ createFilter [QEntry.qand []] = .ok "0" := by
  constructor <;>
    simp [createFilter, parseQuery, parseEntries, createMemberQuery, mysqlEscapeId]

/-! C7. -/

/-- C7: a filter whose el operand is an object (neither array nor number
nor string) compiles to the thrown TypeError, propagated synchronously to
the caller of the filter compiler rather than defaulted. -/
theorem c7_el_unsupported_operand_errors (f : String) (entries : List (String × JSVal)) :
    createFilter [QEntry.field f (.obj [("$el", .obj entries)])]
      = .error "query expr under $el is not supported" := by
  simp [createFilter, parseQuery, parseEntries, fieldConds, opConds,
    applyQueryOperator, queryOpEl]

/-! C8. -/

/-- C8: operator keys outside the recognized set are dropped from a
field-level operator map without an error (compilation is unchanged by
filtering them away), and a node none of whose operator keys is recognized
contributes the constant true: alone, it compiles to the 1 literal. -/
theorem c8_unrecognized_keys_dropped (k : String) (entries : List (String × JSVal)) :
    opConds k entries = opConds k (entries.filter (fun p => recognizedOp p.1))
    ∧ ((∀ p ∈ entries, recognizedOp p.1 = false) →
        createFilter [QEntry.field k (.obj entries)] = .ok "1") := by
  constructor
  · exact opConds_filter_recognized k entries
  · intro h
    have h0 := opConds_of_unrecognized (mysqlEscapeId k) entries h
    simp [createFilter, parseQuery, parseEntries, fieldConds, h0]

/-- C8 witness at concrete inputs. -/
theorem c8_witness :
    (opConds "k" [("$foo", JSVal.num 1), ("$gt", JSVal.num 2)]
      = opConds "k" ([("$foo", JSVal.num 1), ("$gt", JSVal.num 2)].filter
          (fun p => recognizedOp p.1)))
    ∧ createFilter [QEntry.field "f" (.obj [("$bar", JSVal.str "x")])] = .ok "1" :=
  ⟨(c8_unrecognized_keys_dropped "k" [("$foo", JSVal.num 1), ("$gt", JSVal.num 2)]).1,
    (c8_unrecognized_keys_dropped "f" [("$bar", JSVal.str "x")]).2 (by decide)⟩

/-! C2. -/

/-- C2 evidence: at a filter matching only the row with id 1, set issues an
UPDATE with no WHERE clause at all (the compiled filter is discarded), with
an assignment expression of the VALUES form that carries no patch data and
no bound parameters, and hands back undefined rather than an affected-row
count. -/
theorem c2_set_update_has_no_where_clause :
    mysqlSet "user" [QEntry.field "id" (JSVal.num 1)] [("flag", JSVal.num 3)]
      = .ok ([("UPDATE user SET `flag` = VALUES(`flag`)", [])], .undefined) := by
  simp only [mysqlSet, createFilter, parseQuery, parseEntries]
  rfl

/-! C3. -/

/-- C3 amended: for a filter compiling to the constant 0, get returns the
empty sequence, set and remove return undefined (a bare return, not a zero
affected count), and none of the three issues a statement. -/
theorem c3_vacuous_filter_short_circuit (name : String) (q : QueryExpr)
    (fields : Option (List String)) (limit offset : Nat)
    (data : List (String × JSVal)) (h : createFilter q = .ok "0") :
    mysqlGet name q fields limit offset = .ok ([], .emptyList)
    ∧ mysqlSet name q data = .ok ([], .undefined)
    ∧ mysqlRemove name q = .ok ([], .undefined) := by
  refine ⟨?_, ?_, ?_⟩ <;> simp [mysqlGet, mysqlSet, mysqlRemove, h]

/-- C3 witness at the empty-conjunction filter. -/
theorem c3_witness :
    mysqlGet "user" [QEntry.qand []] none 0 0 = .ok ([], .emptyList)
    ∧ mysqlSet "user" [QEntry.qand []] [("flag", JSVal.num 1)] = .ok ([], .undefined)
    ∧ mysqlRemove "user" [QEntry.qand []] = .ok ([], .undefined) :=
  c3_vacuous_filter_short_circuit "user" [QEntry.qand []] none 0 0
    [("flag", JSVal.num 1)] (by simp [createFilter, parseQuery, parseEntries])

/-- C3 counterexample: on the vacuous filter, set evaluates to undefined,
which is not the zero affected count the claim states. -/
theorem c3_counterexample :
    mysqlRemove "user" [QEntry.qand []] = .ok ([], .undefined)
    ∧ RetVal.undefined ≠ RetVal.count 0 := by
  constructor
  · simp [mysqlRemove, createFilter, parseQuery, parseEntries]
  · decide

/-! C4. -/

/-- C4 evidence: with the table default flag 0 and the input row with id 1
and flag 5, upsert spreads the created defaults after the input row, so the
bound parameters carry flag 0 (the default) instead of the incoming 5; on a
key conflict the VALUES update then writes the default, not the incoming
value, into the existing row. -/
theorem c4_upsert_defaults_override_input :
    mysqlUpsert (some (Sum.inl "id")) [("flag", JSVal.num 0)] "tbl"
        [[("id", JSVal.num 1), ("flag", JSVal.num 5)]] none
      = ([("INSERT INTO `tbl` (`id`, `flag`) VALUES (?, ?)\n      ON DUPLICATE KEY UPDATE `flag` = VALUES(`flag`)",
          [JSVal.num 1, JSVal.num 0])], .undefined) := by
  rfl

/-- Dropping via an if-none filterMap is filtering then mapping. -/
theorem filterMap_if_dropped {α β : Type} (p : α → Bool) (g : α → β) (l : List α) :
    (l.filterMap (fun x => if p x then none else some (g x)))
      = (l.filter (fun x => !p x)).map g := by
  induction l with
  | nil => rfl
  | cons x xs ih => cases hx : p x <;> simp [List.filter_cons, hx, ih]

/-- The diff loop splits into the ADD COLUMN statements of the
declared-only names followed by the DROP COLUMN statements of the
physical-only names. -/
theorem syncExistingStmts_eq (t : String) (cfg : TableConfig) (phys : List String) :
    syncExistingStmts t cfg phys
      = (((cfg.fields.map Prod.fst).filter (fun k => !phys.contains k)).map
          (addColumnSQL t cfg))
        ++ ((phys.filter (fun c => !(cfg.fields.map Prod.fst).contains c)).map
          (dropColumnSQL t)) := by
  have hsplit : ∀ (keys : List String),
      ((keys ++ phys).filterMap (fun key =>
        if keys.contains key && phys.contains key then none
        else if keys.contains key then some (addColumnSQL t cfg key)
        else some (dropColumnSQL t key)))
      = ((keys.filter (fun k => !phys.contains k)).map (addColumnSQL t cfg))
        ++ ((phys.filter (fun c => !keys.contains c)).map (dropColumnSQL t)) := by
    intro keys
    rw [List.filterMap_append]
    congr 1
    · have e1 : ∀ x ∈ keys,
          (if keys.contains x && phys.contains x then none
           else if keys.contains x then some (addColumnSQL t cfg x)
           else some (dropColumnSQL t x))
          = (if phys.contains x then none else some (addColumnSQL t cfg x)) := by
        intro x hx
        have hc : keys.contains x = true := by simp [hx]
        rw [hc]
        cases hp : phys.contains x <;> rfl
      rw [List.filterMap_congr e1, filterMap_if_dropped]
    · have e2 : ∀ x ∈ phys,
          (if keys.contains x && phys.contains x then none
           else if keys.contains x then some (addColumnSQL t cfg x)
           else some (dropColumnSQL t x))
          = (if keys.contains x then none else some (dropColumnSQL t x)) := by
        intro x hx
        have hc : phys.contains x = true := by simp [hx]
        rw [hc]
        cases hk : keys.contains x <;> rfl
      rw [List.filterMap_congr e2, filterMap_if_dropped]
  exact hsplit (cfg.fields.map Prod.fst)

/-! C5. -/

/-- C5: synchronizing a physically existing table emits exactly the ADD
COLUMN statements of the declared-but-not-physical names followed by the
DROP COLUMN statements of the physical-but-not-declared names and nothing
else; under the no-duplicate invariants of declared keys and physical
columns, each such name occurs exactly once in its respective filter, hence
exactly one statement per name, and names present on both sides generate no
statement. -/
theorem c5_existing_table_diff (t : String) (ps : List String) (cfg : TableConfig)
    (phys : List String) (hphys : phys ≠ []) :
    (syncTable t ps (SyncState.mk cfg phys)).1
      = ((((updateConfig t ps cfg).fields.map Prod.fst).filter
            (fun k => !phys.contains k)).map (addColumnSQL t (updateConfig t ps cfg)))
        ++ ((phys.filter
            (fun c => !((updateConfig t ps cfg).fields.map Prod.fst).contains c)).map
            (dropColumnSQL t))
    ∧ (((updateConfig t ps cfg).fields.map Prod.fst).Nodup →
        ∀ k ∈ (updateConfig t ps cfg).fields.map Prod.fst, k ∉ phys →
          (((updateConfig t ps cfg).fields.map Prod.fst).filter
            (fun k2 => !phys.contains k2)).count k = 1)
    ∧ (phys.Nodup →
        ∀ c ∈ phys, c ∉ (updateConfig t ps cfg).fields.map Prod.fst →
          (phys.filter
            (fun c2 => !((updateConfig t ps cfg).fields.map Prod.fst).contains c2)).count c
            = 1) := by
  have hne : phys.isEmpty = false := by
    cases phys with
    | nil => exact absurd rfl hphys
    | cons a l => rfl
  refine ⟨?_, ?_, ?_⟩
  · show (syncTable t ps (SyncState.mk cfg phys)).1 = _
    unfold syncTable
    simp only [hne, Bool.false_eq_true, if_false]
    exact syncExistingStmts_eq t (updateConfig t ps cfg) phys
  · intro hnd k hk hknot
    refine List.count_eq_one_of_mem (hnd.filter _) ?_
    exact List.mem_filter.mpr ⟨hk, by simp [hknot]⟩
  · intro hnd c hc hcnot
    refine List.count_eq_one_of_mem (hnd.filter _) ?_
    exact List.mem_filter.mpr ⟨hc, by simp [hcnot]⟩

/-- C5 witness: declared fields a and b against physical columns b and c. -/
theorem c5_witness :
    ((syncTable "tbl" [] (SyncState.mk cfgAB ["b", "c"])).1
      = ((((updateConfig "tbl" [] cfgAB).fields.map Prod.fst).filter
            (fun k => !(["b", "c"].contains k))).map
            (addColumnSQL "tbl" (updateConfig "tbl" [] cfgAB)))
        ++ (((["b", "c"] : List String).filter
            (fun c => !((updateConfig "tbl" [] cfgAB).fields.map Prod.fst).contains c)).map
            (dropColumnSQL "tbl")))
    ∧ (((updateConfig "tbl" [] cfgAB).fields.map Prod.fst).filter
          (fun k2 => !(["b", "c"].contains k2))).count "a" = 1
    ∧ ((["b", "c"] : List String).filter
          (fun c2 => !((updateConfig "tbl" [] cfgAB).fields.map Prod.fst).contains c2)).count "c"
        = 1 := by
  obtain ⟨h1, h2, h3⟩ :=
    c5_existing_table_diff "tbl" [] cfgAB ["b", "c"] (by simp)
  exact ⟨h1, h2 (by decide) "a" (by decide) (by decide), h3 (by decide) "c" (by decide) (by decide)⟩

/-! C10. -/

/-- C10: with autoInc set and a single primary field, the generated column
definition of that field is exactly the escaped identifier followed by the
fixed INTEGER NOT NULL PRIMARY KEY AUTOINCREMENT text, whatever the
declared type, initial value or nullability of the field, and the CREATE
constraint list omits the separate primary-key constraint, holding exactly
the UNIQUE and FOREIGN KEY clauses. -/
theorem c10_autoinc_inline_primary (cfg : TableConfig) (p : String)
    (h1 : cfg.primary = some (Sum.inl p)) (h2 : cfg.autoInc = true) :
    getColumnDefinitionSQL cfg p
      = sqliteEscapeId p ++ " INTEGER NOT NULL PRIMARY KEY AUTOINCREMENT"
    ∧ createConstraints cfg
      = cfg.unique.map uniqueConstraintSQL ++ cfg.foreign.map foreignConstraintSQL := by
  constructor
  · simp [getColumnDefinitionSQL, primaryIsKey, h1, h2]
  · simp [createConstraints, h2]

/-- C10 witness: an auto-increment config whose primary field declares a
text type, an initial value and explicit non-nullability. -/
theorem c10_witness :
    getColumnDefinitionSQL cfgAuto "id"
      = sqliteEscapeId "id" ++ " INTEGER NOT NULL PRIMARY KEY AUTOINCREMENT"
    ∧ createConstraints cfgAuto
      = cfgAuto.unique.map uniqueConstraintSQL ++ cfgAuto.foreign.map foreignConstraintSQL :=
  c10_autoinc_inline_primary cfgAuto "id" rfl rfl

/-- Both branches of syncTable store the updated config back. -/
theorem syncTable_config (t : String) (ps : List String) (cfg : TableConfig)
    (phys : List String) :
    ((syncTable t ps (SyncState.mk cfg phys)).2).config = updateConfig t ps cfg := by
  unfold syncTable
  cases hp : phys.isEmpty <;> simp [hp]

/-- Assigning into config.fields finds the assigned spec under its key. -/
theorem find_setField_updated (k : String) (v : FieldSpec)
    (fields : List (String × FieldSpec))
    (h : fields.any (fun p => p.1 == k) = true) :
    (fields.map (fun p => if p.1 == k then (k, v) else p)).find? (fun p => p.1 == k)
      = some (k, v) := by
  induction fields with
  | nil => simp at h
  | cons q qs ih =>
      rw [List.map_cons]
      by_cases hq : (q.1 == k) = true
      · rw [if_pos hq]
        simp [List.find?]
      · have hq' : (q.1 == k) = false := by rwa [Bool.not_eq_true] at hq
        have h' : qs.any (fun p => p.1 == k) = true := by
          simp only [List.any_cons, Bool.or_eq_true] at h
          exact h.resolve_left hq
        rw [if_neg hq]
        simp only [List.find?, hq']
        exact ih h'

/-- Assigning under a different key leaves a lookup unchanged. -/
theorem find_setField_ne (k q : String) (v : FieldSpec) (h : q ≠ k) :
    ∀ (fields : List (String × FieldSpec)),
      (fields.map (fun p => if p.1 == q then (q, v) else p)).find? (fun p => p.1 == k)
        = fields.find? (fun p => p.1 == k) := by
  intro fields
  induction fields with
  | nil => rfl
  | cons e es ih =>
      rw [List.map_cons]
      by_cases he : (e.1 == q) = true
      · have he' : e.1 = q := by simpa using he
        have hek : (e.1 == k) = false := by simp [he', h]
        have hqk : (q == k) = false := by simp [h]
        rw [if_pos he]
        simp only [List.find?, hek, hqk]
        exact ih
      · rw [if_neg he]
        simp only [List.find?]
        cases hek : (e.1 == k) with
        | false => simp only [hek]; exact ih
        | true => simp [hek]

/-- The lookup of an assigned key is the assigned spec. -/
theorem lookupFieldOpt_setField_self (fields : List (String × FieldSpec))
    (k : String) (v : FieldSpec) :
    lookupFieldOpt (setField fields k v) k = some v := by
  unfold setField lookupFieldOpt
  cases han : fields.any (fun p => p.1 == k) with
  | true =>
      rw [if_pos rfl, find_setField_updated k v fields han]
      rfl
  | false =>
      have hanp : ¬ ((fields.any fun p => p.1 == k) = true) := by simp [han]
      have hnone : fields.find? (fun p => p.1 == k) = none := by
        rw [List.find?_eq_none]
        intro x hx
        simpa using (List.any_eq_false.mp han) x hx
      rw [if_neg Bool.false_ne_true, List.find?_append, hnone]
      simp [List.find?]

/-- The lookup of a different key is unchanged by an assignment. -/
theorem lookupFieldOpt_setField_ne (fields : List (String × FieldSpec))
    (k q : String) (v : FieldSpec) (h : q ≠ k) :
    lookupFieldOpt (setField fields q v) k = lookupFieldOpt fields k := by
  unfold setField lookupFieldOpt
  cases han : fields.any (fun p => p.1 == q) with
  | true =>
      rw [if_pos rfl, find_setField_ne k q v h fields]
  | false =>
      have hanp : ¬ ((fields.any fun p => p.1 == q) = true) := by simp [han]
      have hqk : (q == k) = false := by simp [h]
      have hsingle : List.find? (fun p => p.1 == k) [(q, v)] = none := by
        simp [List.find?, hqk]
      rw [if_neg Bool.false_ne_true, List.find?_append, hsingle, Option.or_none]

/-- The platform fold is the fold of its tail after one registration. -/
theorem registerPlatforms_cons (c : TableConfig) (p : String) (ps : List String) :
    registerPlatforms c (p :: ps) = registerPlatforms (registerPlatform c p) ps := rfl

/-- Registering platforms not containing a key leaves its lookup unchanged. -/
theorem lookupFieldOpt_registerPlatforms_not_mem (k : String) :
    ∀ (l : List String) (c : TableConfig), k ∉ l →
      lookupFieldOpt (registerPlatforms c l).fields k = lookupFieldOpt c.fields k := by
  intro l
  induction l with
  | nil => intro c _; rfl
  | cons p ps ih =>
      intro c hk
      have hne : p ≠ k := fun hh => hk (hh ▸ List.mem_cons_self p ps)
      have hk' : k ∉ ps := fun hh => hk (List.mem_cons_of_mem p hh)
      rw [registerPlatforms_cons, ih (registerPlatform c p) hk']
      exact lookupFieldOpt_setField_ne c.fields k p platformField hne

/-- Every registered platform is looked up as the synthesized string field. -/
theorem lookupFieldOpt_registerPlatforms_mem (k : String) :
    ∀ (l : List String) (c : TableConfig), k ∈ l →
      lookupFieldOpt (registerPlatforms c l).fields k = some platformField := by
  intro l
  induction l with
  | nil => intro c h; simp at h
  | cons p ps ih =>
      intro c hk
      by_cases hmem : k ∈ ps
      · rw [registerPlatforms_cons]
        exact ih (registerPlatform c p) hmem
      · have hkp : k = p := by
          rcases List.mem_cons.mp hk with h | h
          · exact h
          · exact absurd h hmem
        subst hkp
        rw [registerPlatforms_cons,
          lookupFieldOpt_registerPlatforms_not_mem k ps (registerPlatform c k) hmem]
        exact lookupFieldOpt_setField_self c.fields k platformField

/-- The platform fold appends one unique entry per registered platform. -/
theorem registerPlatforms_unique :
    ∀ (l : List String) (c : TableConfig),
      (registerPlatforms c l).unique = c.unique ++ l.map Sum.inl := by
  intro l
  induction l with
  | nil => intro c; simp [registerPlatforms]
  | cons p ps ih =>
      intro c
      rw [registerPlatforms_cons, ih]
      simp [registerPlatform]

/-! C9. -/

/-- C9: syncTable writes the updated config back into the shared registry
state; for any table other than user that write-back is the identity, and
for the user table every distinct configured platform gains a synthesized
string-typed field under its name and exactly one appended unique entry. -/
theorem c9_identity_table_writeback (t : String) (ps : List String)
    (cfg : TableConfig) (phys : List String) :
    ((syncTable t ps (SyncState.mk cfg phys)).2).config = updateConfig t ps cfg
    ∧ (t ≠ "user" → updateConfig t ps cfg = cfg)
    ∧ (t = "user" →
        (∀ p ∈ setDedup ps,
          lookupFieldOpt (updateConfig t ps cfg).fields p = some platformField)
        ∧ (updateConfig t ps cfg).unique
            = cfg.unique ++ (setDedup ps).map Sum.inl) := by
  refine ⟨syncTable_config t ps cfg phys, ?_, ?_⟩
  · intro ht
    simp [updateConfig, ht]
  · intro ht
    subst ht
    constructor
    · intro p hp
      simp only [updateConfig, beq_self_eq_true, if_true]
      exact lookupFieldOpt_registerPlatforms_mem p (setDedup ps) cfg hp
    · simp only [updateConfig, beq_self_eq_true, if_true]
      exact registerPlatforms_unique (setDedup ps) cfg

/-- C9 witness: a non-user table is untouched, the user table gains the
deduplicated platform field and unique entry. -/
theorem c9_witness :
    updateConfig "channel" ["onebot"] cfgAB = cfgAB
    ∧ (∀ p ∈ setDedup ["onebot", "onebot"],
        lookupFieldOpt (updateConfig "user" ["onebot", "onebot"] cfgAB).fields p
          = some platformField)
    ∧ (updateConfig "user" ["onebot", "onebot"] cfgAB).unique
        = cfgAB.unique ++ (setDedup ["onebot", "onebot"]).map Sum.inl := by
  refine ⟨(c9_identity_table_writeback "channel" ["onebot"] cfgAB []).2.1 (by decide),
    ((c9_identity_table_writeback "user" ["onebot", "onebot"] cfgAB []).2.2 rfl).1,
    ((c9_identity_table_writeback "user" ["onebot", "onebot"] cfgAB []).2.2 rfl).2⟩

/-- Assignment into config.fields adds exactly the assigned key to the key
set. -/
theorem mem_setField_keys (fields : List (String × FieldSpec)) (k : String)
    (v : FieldSpec) (x : String) :
    x ∈ (setField fields k v).map Prod.fst ↔ x ∈ fields.map Prod.fst ∨ x = k := by
  unfold setField
  cases han : fields.any (fun p => p.1 == k) with
  | true =>
      rw [if_pos rfl]
      have hkeys : (fields.map (fun p => if (p.1 == k) = true then (k, v) else p)).map Prod.fst
          = fields.map Prod.fst := by
        rw [List.map_map]
        apply List.map_congr_left
        intro p hp
        by_cases hpk : (p.1 == k) = true
        · have hp1 : p.1 = k := by simpa using hpk
          simp [Function.comp, hpk, hp1]
        · simp [Function.comp, hpk]
      rw [hkeys]
      constructor
      · exact fun hh => Or.inl hh
      · intro hh
        rcases hh with hh | hh
        · exact hh
        · subst hh
          obtain ⟨p, hp, hpk⟩ := List.any_eq_true.mp han
          have hp1 : p.1 = x := by simpa using hpk
          exact hp1 ▸ List.mem_map_of_mem Prod.fst hp
  | false =>
      rw [if_neg Bool.false_ne_true]
      simp

/-- Registering a platform list adds exactly those names to the key set. -/
theorem mem_registerPlatforms_keys :
    ∀ (l : List String) (c : TableConfig) (x : String),
      x ∈ (registerPlatforms c l).fields.map Prod.fst
        ↔ x ∈ c.fields.map Prod.fst ∨ x ∈ l := by
  intro l
  induction l with
  | nil => intro c x; simp [registerPlatforms]
  | cons p ps ih =>
      intro c x
      rw [registerPlatforms_cons, ih]
      have hm : x ∈ (registerPlatform c p).fields.map Prod.fst
          ↔ x ∈ c.fields.map Prod.fst ∨ x = p :=
        mem_setField_keys c.fields p platformField x
      rw [hm]
      simp only [List.mem_cons]
      tauto

/-- The registry write-back adds exactly the deduplicated platform names of
the user table to the declared key set. -/
theorem mem_updateConfig_keys (t : String) (ps : List String) (c : TableConfig)
    (x : String) :
    x ∈ (updateConfig t ps c).fields.map Prod.fst
      ↔ x ∈ c.fields.map Prod.fst ∨ (t = "user" ∧ x ∈ setDedup ps) := by
  unfold updateConfig
  by_cases ht : t = "user"
  · subst ht
    rw [if_pos (by simp), mem_registerPlatforms_keys]
    simp
  · rw [if_neg (by simp [ht])]
    simp [ht]

/-- After one synchronization the physical columns hold exactly the
declared keys of the updated config. -/
theorem mem_syncTable_columns (t : String) (ps : List String) (cfg : TableConfig)
    (phys : List String) (x : String) :
    x ∈ ((syncTable t ps (SyncState.mk cfg phys)).2).columns
      ↔ x ∈ (updateConfig t ps cfg).fields.map Prod.fst := by
  simp only [syncTable]
  cases hp : phys.isEmpty with
  | true => simp [hp]
  | false =>
      simp only [hp, Bool.false_eq_true, if_false]
      simp only [List.mem_append, List.mem_filter]
      constructor
      · rintro (⟨h1, h2⟩ | ⟨h1, h2⟩)
        · simpa using h2
        · exact h1
      · intro hx
        by_cases hxp : x ∈ phys
        · exact Or.inl ⟨hxp, by simpa using hx⟩
        · exact Or.inr ⟨hx, by simp [hxp]⟩

/-! C6. -/

/-- C6: synchronization is idempotent: a second syncTable run against the
state produced by a first run, with nothing else changed, emits no DDL
statement (any table with at least one declared field). -/
theorem c6_second_synchronization_no_ddl (t : String) (ps : List String)
    (cfg : TableConfig) (phys : List String) (h : cfg.fields ≠ []) :
    (syncTable t ps ((syncTable t ps (SyncState.mk cfg phys)).2)).1 = [] := by
  set st1 := (syncTable t ps (SyncState.mk cfg phys)).2 with hst1
  have hconfig : st1.config = updateConfig t ps cfg := by
    rw [hst1]; exact syncTable_config t ps cfg phys
  have hcols : ∀ x, x ∈ st1.columns ↔ x ∈ (updateConfig t ps cfg).fields.map Prod.fst := by
    intro x; rw [hst1]; exact mem_syncTable_columns t ps cfg phys x
  have hx0 : ∃ x, x ∈ st1.columns := by
    cases hf : cfg.fields with
    | nil => exact absurd hf h
    | cons e rest =>
        refine ⟨e.1, (hcols e.1).mpr ((mem_updateConfig_keys t ps cfg e.1).mpr (Or.inl ?_))⟩
        rw [hf]
        simp
  obtain ⟨x0, hx0⟩ := hx0
  have hne : st1.columns.isEmpty = false := by
    cases hc : st1.columns with
    | nil => rw [hc] at hx0; simp at hx0
    | cons a l => rfl
  have hkeys2 : ∀ x, x ∈ (updateConfig t ps st1.config).fields.map Prod.fst
      ↔ x ∈ (updateConfig t ps cfg).fields.map Prod.fst := by
    intro x
    rw [hconfig, mem_updateConfig_keys, mem_updateConfig_keys]
    tauto
  simp only [syncTable, hne, Bool.false_eq_true, if_false]
  rw [syncExistingStmts_eq]
  have hf1 : ((updateConfig t ps st1.config).fields.map Prod.fst).filter
      (fun k => !st1.columns.contains k) = [] := by
    rw [List.filter_eq_nil_iff]
    intro a ha
    have hmem : a ∈ st1.columns := (hcols a).mpr ((hkeys2 a).mp ha)
    simp [hmem]
  have hf2 : st1.columns.filter
      (fun c => !((updateConfig t ps st1.config).fields.map Prod.fst).contains c) = [] := by
    rw [List.filter_eq_nil_iff]
    intro a ha
    have hmem : a ∈ (updateConfig t ps st1.config).fields.map Prod.fst :=
      (hkeys2 a).mpr ((hcols a).mp ha)
    simp [hmem]
  rw [hf1, hf2]
  simp

/-- C6 witness: the user table with one platform, created then re-synced. -/
theorem c6_witness :
    (syncTable "user" ["discord"]
      ((syncTable "user" ["discord"] (SyncState.mk cfgAB [])).2)).1 = [] :=
  c6_second_synchronization_no_ddl "user" ["discord"] cfgAB [] (by simp [cfgAB])
